import Mathlib

/-!
Shallow embedding of the synthetic e-commerce data generator
(`generate_data.py`) and the SQLite loader (`ingest_to_sqlite.py`).

Modelling conventions:
* Money (`REAL` columns, Python floats that hold 2-decimal amounts) is `ℚ`.
* Dates are day numbers (`ℕ`); `faker.date_between(lo, hi)` becomes
  `dateBetween lo hi c` where `c` is a choice drawn from a stream.
* Randomness is resolved by explicit choice streams (`Choices`): every call
  to `random.randint`, `random.choice`, `random.choices`, `random.uniform`
  or a faker sampler consumes one stream value, reduced into the sampler's
  range (`% n` for integer ranges, clamping for `uniform`).  Every value the
  Python sampler can return is reachable by some stream, and every stream
  yields a value the sampler could have returned.
* `round(x, 2)` (Python round-half-even on the decimal value) is `pyRound2`.
-/

/-- Python `round` to the nearest integer, ties to even (round-half-even). -/
def rhe (x : ℚ) : ℤ :=
  if x - ⌊x⌋ < 1/2 then ⌊x⌋
  else if 1/2 < x - ⌊x⌋ then ⌊x⌋ + 1
  else if ⌊x⌋ % 2 = 0 then ⌊x⌋ else ⌊x⌋ + 1

/-- Python `round(x, 2)`: round-half-even at the second decimal place. -/
def pyRound2 (x : ℚ) : ℚ := (rhe (x * 100) : ℚ) / 100

/-- Resolve a `random.uniform(lo, hi)` draw: the stream value `q`, clamped
into `[lo, hi]`. -/
def clampQ (lo hi q : ℚ) : ℚ := max lo (min hi q)

/-- Resolve a `faker.date_between(lo, hi)` draw (and any integer-range draw
over days): `lo + c % (hi - lo + 1)`, which lies in `[lo, hi]` when
`lo ≤ hi`. -/
def dateBetween (lo hi c : ℕ) : ℕ := lo + c % (hi - lo + 1)

def CATEGORIES : List String :=
  ["electronics", "fashion", "home", "beauty", "books", "sports"]

def ORDER_STATUSES : List String := ["pending", "completed", "cancelled"]

def PAYMENT_METHODS : List String :=
  ["credit_card", "debit_card", "upi", "net_banking"]

def PAYMENT_STATUSES : List String := ["successful", "failed", "pending"]

structure User where
  user_id : ℕ
  full_name : String
  email : String
  signup_date : ℕ
  phone_number : String
deriving Repr, DecidableEq, Inhabited

structure Product where
  product_id : ℕ
  product_name : String
  category : String
  price : ℚ
  stock_quantity : ℕ
deriving Repr, DecidableEq, Inhabited

structure Order where
  order_id : ℕ
  user_id : ℕ
  order_date : ℕ
  total_amount : ℚ
  order_status : String
deriving Repr, DecidableEq, Inhabited

structure OrderItem where
  item_id : ℕ
  order_id : ℕ
  product_id : ℕ
  quantity : ℕ
  unit_price : ℚ
  line_total : ℚ
deriving Repr, DecidableEq, Inhabited

structure Payment where
  payment_id : ℕ
  order_id : ℕ
  payment_method : String
  payment_status : String
  payment_date : ℕ
  amount_paid : ℚ
deriving Repr, DecidableEq, Inhabited

/-- All the random / faker draws the generator consumes, as streams indexed
by row (and, for order items, by row and position within the order). -/
structure Choices where
  nameF : ℕ → String
  emailF : ℕ → String
  phoneF : ℕ → String
  signupC : ℕ → ℕ
  prodNameF : ℕ → String
  catC : ℕ → ℕ
  priceC : ℕ → ℚ
  stockC : ℕ → ℕ
  userC : ℕ → ℕ
  orderDateC : ℕ → ℕ
  orderStatusC : ℕ → ℕ
  numItemsC : ℕ → ℕ
  prodC : ℕ → ℕ → ℕ
  qtyC : ℕ → ℕ → ℕ
  upC : ℕ → ℕ → ℚ
  payStatusC : ℕ → ℕ
  payMethodC : ℕ → ℕ
  payDateC : ℕ → ℕ
  amtC : ℕ → ℚ

/-- One row of `generate_users`: sequential id, faker name/email/phone,
`signup_date = faker.date_between("-2y", "today")`. -/
def mkUser (today : ℕ) (c : Choices) (i : ℕ) : User :=
  { user_id := i + 1
    full_name := c.nameF i
    email := c.emailF i
    signup_date := dateBetween (today - 730) today (c.signupC i)
    phone_number := c.phoneF i }

/-- `generate_users(num_users, faker)`. -/
def generateUsers (n today : ℕ) (c : Choices) : List User :=
  (List.range n).map (mkUser today c)

/-- One row of `generate_products`: sequential id, uniform category from the
6-way enumeration, `price = round(uniform(5.0, 500.0), 2)`,
`stock = randint(0, 500)`. -/
def mkProduct (c : Choices) (i : ℕ) : Product :=
  { product_id := i + 1
    product_name := c.prodNameF i
    category := CATEGORIES.getD (c.catC i % CATEGORIES.length) ""
    price := pyRound2 (clampQ 5 500 (c.priceC i))
    stock_quantity := c.stockC i % 501 }

/-- `generate_products(num_products, faker)`. -/
def generateProducts (n : ℕ) (c : Choices) : List Product :=
  (List.range n).map (mkProduct c)

/-- One row of `generate_orders`: sequential id, a user sampled uniformly
with replacement, `order_date = faker.date_between(user.signup_date,
"today")`, weighted status, `total_amount` initialised to the `0.0`
placeholder. -/
def mkOrder (users : List User) (today : ℕ) (c : Choices) (i : ℕ) : Order :=
  let u := users.getD (c.userC i % users.length) default
  { order_id := i + 1
    user_id := u.user_id
    order_date := dateBetween u.signup_date today (c.orderDateC i)
    total_amount := 0
    order_status := ORDER_STATUSES.getD (c.orderStatusC i % ORDER_STATUSES.length) "" }

/-- `generate_orders(num_orders, users_df, faker)`. -/
def generateOrders (n : ℕ) (users : List User) (today : ℕ) (c : Choices) :
    List Order :=
  (List.range n).map (mkOrder users today c)

/-- One row of the inner loop of `generate_order_items`: a product sampled
with replacement, `quantity = randint(1, 5)`,
`unit_price = round(uniform(price * 0.9, price * 1.1), 2)`,
`line_total = round(quantity * unit_price, 2)`.  `oi` is the order's index
in the orders table, `j` the item's position inside the order, `sid` the
sequential `item_id`. -/
def mkItem (products : List Product) (c : Choices) (oi : ℕ) (o : Order)
    (j sid : ℕ) : OrderItem :=
  let p := products.getD (c.prodC oi j % products.length) default
  let q := 1 + c.qtyC oi j % 5
  let up := pyRound2 (clampQ (p.price * (9/10)) (p.price * (11/10)) (c.upC oi j))
  { item_id := sid
    order_id := o.order_id
    product_id := p.product_id
    quantity := q
    unit_price := up
    line_total := pyRound2 ((q : ℚ) * up) }

/-- `num_items = random.randint(1, 5)` for the order at index `oi`. -/
def numItemsFor (c : Choices) (oi : ℕ) : ℕ := 1 + c.numItemsC oi % 5

/-- The chunk of order items generated for one order, item ids starting at
`sid`. -/
def itemsFor (products : List Product) (c : Choices) (oi : ℕ) (o : Order)
    (sid : ℕ) : List OrderItem :=
  (List.range (numItemsFor c oi)).map fun j => mkItem products c oi o j (sid + j)

/-- The loop of `generate_order_items` over the remaining orders; `oi` is the
index of the first remaining order and `sid` the next sequential item id. -/
def generateOrderItemsAux (products : List Product) (c : Choices) :
    List Order → ℕ → ℕ → List OrderItem
  | [], _, _ => []
  | o :: rest, oi, sid =>
      itemsFor products c oi o sid ++
        generateOrderItemsAux products c rest (oi + 1) (sid + numItemsFor c oi)

/-- `generate_order_items(orders_df, products_df)`, items part: item ids
start at 1. -/
def generateOrderItems (orders : List Order) (products : List Product)
    (c : Choices) : List OrderItem :=
  generateOrderItemsAux products c orders 0 1

/-- One `order_totals[order["order_id"]] += line_total` step of the
`defaultdict(float)` accumulator. -/
def bumpTotals (acc : ℕ → ℚ) (it : OrderItem) : ℕ → ℚ :=
  fun k => if k = it.order_id then acc k + it.line_total else acc k

/-- The `order_totals` accumulator after `generate_order_items` has run over
the given (already generated) items: a `defaultdict(float)` starting at 0. -/
def accumTotals (items : List OrderItem) : ℕ → ℚ :=
  items.foldl bumpTotals fun _ => 0

/-- The back-fill in `main`:
`orders_df["total_amount"] = order_totals.round(2)`, aligned by order id. -/
def backfillTotals (orders : List Order) (totals : ℕ → ℚ) : List Order :=
  orders.map fun o => { o with total_amount := pyRound2 (totals o.order_id) }

/-- One row of `generate_payments`: weighted status, uniform method,
`payment_date = faker.date_between(order.order_date, "today")`;
`amount_paid = round(total_amount, 2)` when successful, otherwise
`round(uniform(1.0, max(total_amount, 1.0)), 2)`; finally floored at
`0.01` by `max(amount_paid, 0.01)`. -/
def mkPayment (today : ℕ) (c : Choices) (i : ℕ) (o : Order) : Payment :=
  let st := PAYMENT_STATUSES.getD (c.payStatusC i % PAYMENT_STATUSES.length) ""
  let amt := if st = "successful" then pyRound2 o.total_amount
             else pyRound2 (clampQ 1 (max o.total_amount 1) (c.amtC i))
  { payment_id := o.order_id
    order_id := o.order_id
    payment_method := PAYMENT_METHODS.getD (c.payMethodC i % PAYMENT_METHODS.length) ""
    payment_status := st
    payment_date := dateBetween o.order_date today (c.payDateC i)
    amount_paid := max amt (1/100) }

/-- `generate_payments(orders_df, faker)`, run on the back-filled orders. -/
def generatePayments (orders : List Order) (today : ℕ) (c : Choices) :
    List Payment :=
  (List.range orders.length).map fun i => mkPayment today c i (orders.getD i default)

/-- `num_users = max(int(num_orders * 0.6), 50)` in `main`. -/
def numUsersOf (rows : ℕ) : ℕ := max ⌊(rows : ℚ) * (6/10)⌋₊ 50

/-- `num_products = max(int(num_orders * 0.5), 40)` in `main`. -/
def numProductsOf (rows : ℕ) : ℕ := max ⌊(rows : ℚ) * (5/10)⌋₊ 40

/-- The five generated tables (also the shape of the five CSV files and of
the five SQLite tables). -/
structure Dataset where
  users : List User
  products : List Product
  orders : List Order
  order_items : List OrderItem
  payments : List Payment
deriving Repr, DecidableEq, Inhabited

/-- The orders table as first generated (placeholder totals). -/
def rawOrdersOf (rows today : ℕ) (c : Choices) : List Order :=
  generateOrders rows (generateUsers (numUsersOf rows) today c) today c

/-- The order-items table of the run. -/
def itemsOf (rows today : ℕ) (c : Choices) : List OrderItem :=
  generateOrderItems (rawOrdersOf rows today c)
    (generateProducts (numProductsOf rows) c) c

/-- The orders table after the totals back-fill. -/
def ordersOf (rows today : ℕ) (c : Choices) : List Order :=
  backfillTotals (rawOrdersOf rows today c) (accumTotals (itemsOf rows today c))

/-- The whole generation pipeline of `main` (after seeding): users, products,
orders, order items, totals back-fill, then payments. -/
def generateAll (rows today : ℕ) (c : Choices) : Dataset :=
  { users := generateUsers (numUsersOf rows) today c
    products := generateProducts (numProductsOf rows) c
    orders := ordersOf rows today c
    order_items := itemsOf rows today c
    payments := generatePayments (ordersOf rows today c) today c }

/-- `main` of `generate_data.py`: rejects `rows <= 0` with
`ValueError("rows must be a positive integer.")` before seeding, directory
creation or any generation; otherwise runs the pipeline. -/
def mainGen (rows : ℤ) (today : ℕ) (c : Choices) : Except String Dataset :=
  if rows ≤ 0 then .error "rows must be a positive integer."
  else .ok (generateAll rows.toNat today c)

/-!
The loader (`ingest_to_sqlite.py`).  The five `CREATE TABLE` statements are
modelled as per-row admissibility checks (`PRIMARY KEY` / `UNIQUE`
uniqueness against the rows already in the table, `FOREIGN KEY` membership
in the referenced table with `PRAGMA foreign_keys = ON`, and the `CHECK`
constraints).  Columns that are `NOT NULL` in the schema are non-nullable by
type in this model; `stock_quantity` is a `ℕ`, so its
`CHECK(stock_quantity >= 0)` holds by type.  `executemany` aborts the run at
the first rejected row and the transaction is never committed, so a failed
table load surfaces as an `Except.error` of the whole run.
-/

/-- Admissibility of a `users` row against the already-inserted rows:
`user_id INTEGER PRIMARY KEY`, `email TEXT UNIQUE NOT NULL`,
`phone_number TEXT UNIQUE`. -/
def checkUser (tbl : List User) (u : User) : Bool :=
  tbl.all fun v =>
    v.user_id != u.user_id && v.email != u.email && v.phone_number != u.phone_number

/-- Admissibility of a `products` row: primary key,
`category IN (...)` 6-way check, `CHECK(price > 0)`. -/
def checkProduct (tbl : List Product) (p : Product) : Bool :=
  (tbl.all fun q => q.product_id != p.product_id) &&
    CATEGORIES.contains p.category && decide (0 < p.price)

/-- Admissibility of an `orders` row: primary key, foreign key into `users`,
`CHECK(total_amount > 0)`, `order_status IN (...)`. -/
def checkOrder (users : List User) (tbl : List Order) (o : Order) : Bool :=
  (tbl.all fun q => q.order_id != o.order_id) &&
    (users.any fun u => u.user_id == o.user_id) &&
    decide (0 < o.total_amount) && ORDER_STATUSES.contains o.order_status

/-- Admissibility of an `order_items` row: primary key, foreign keys into
`orders` and `products`, `CHECK(quantity > 0)`, `CHECK(unit_price > 0)`,
`CHECK(line_total >= 0)`. -/
def checkItem (orders : List Order) (products : List Product)
    (tbl : List OrderItem) (it : OrderItem) : Bool :=
  (tbl.all fun q => q.item_id != it.item_id) &&
    (orders.any fun o => o.order_id == it.order_id) &&
    (products.any fun p => p.product_id == it.product_id) &&
    decide (0 < it.quantity) && decide (0 < it.unit_price) &&
    decide (0 ≤ it.line_total)

/-- Admissibility of a `payments` row: primary key, foreign key into
`orders`, `payment_method IN (...)`, `payment_status IN (...)`,
`CHECK(amount_paid > 0)`. -/
def checkPayment (orders : List Order) (tbl : List Payment) (p : Payment) : Bool :=
  (tbl.all fun q => q.payment_id != p.payment_id) &&
    (orders.any fun o => o.order_id == p.order_id) &&
    PAYMENT_METHODS.contains p.payment_method &&
    PAYMENT_STATUSES.contains p.payment_status &&
    decide (0 < p.amount_paid)

/-- `cursor.executemany` of one table's rows: each row is checked against the
table built so far and appended; the first rejected row aborts the load. -/
def insertAll (check : List α → α → Bool) :
    List α → List α → Except String (List α)
  | tbl, [] => .ok tbl
  | tbl, r :: rs =>
      if check tbl r then insertAll check (tbl ++ [r]) rs
      else .error "constraint violation"

/-- `insert_data`: load the five CSV tables in `LOAD_SEQUENCE` order
(users, products, orders, order_items, payments), parents before
children, into the tables of `db`. -/
def insertData (db : Dataset) (csv : Dataset) : Except String Dataset := do
  let us ← insertAll checkUser db.users csv.users
  let ps ← insertAll checkProduct db.products csv.products
  let os ← insertAll (checkOrder us) db.orders csv.orders
  let its ← insertAll (checkItem os ps) db.order_items csv.order_items
  let pys ← insertAll (checkPayment os) db.payments csv.payments
  pure ⟨us, ps, os, its, pys⟩

/-- The five tables right after `drop_tables` + `create_tables`: whatever the
previous contents were, all five tables exist and are empty. -/
def dropAndCreate (_db : Dataset) : Dataset := ⟨[], [], [], [], []⟩

/-- `main` of `ingest_to_sqlite.py`: drop the five tables, recreate them with
their constraints, then bulk-insert the CSV rows. -/
def mainIngest (db : Dataset) (csv : Dataset) : Except String Dataset :=
  insertData (dropAndCreate db) csv

/-! Basic facts about the rounding function. -/

theorem rhe_intCast (n : ℤ) : rhe (n : ℚ) = n := by
  unfold rhe
  rw [Int.floor_intCast n]
  have h2 : (n : ℚ) - (n : ℚ) = 0 := by ring
  rw [h2]
  norm_num

theorem rhe_ge_floor (x : ℚ) : ⌊x⌋ ≤ rhe x := by
  unfold rhe
  split
  · exact le_refl _
  · split
    · omega
    · split <;> omega

theorem pyRound2_intCast_div (n : ℤ) : pyRound2 ((n : ℚ) / 100) = (n : ℚ) / 100 := by
  unfold pyRound2
  have h : ((n : ℚ) / 100) * 100 = (n : ℚ) := by ring
  rw [h, rhe_intCast]

theorem pyRound2_idem (x : ℚ) : pyRound2 (pyRound2 x) = pyRound2 x :=
  pyRound2_intCast_div (rhe (x * 100))

theorem pyRound2_ge (n : ℤ) (x : ℚ) (h : (n : ℚ) / 100 ≤ x) :
    (n : ℚ) / 100 ≤ pyRound2 x := by
  unfold pyRound2
  have h100 : (0 : ℚ) < 100 := by norm_num
  have hx : (n : ℚ) ≤ x * 100 := by
    have := (div_le_iff₀ h100).mp h
    linarith
  have hfloor : n ≤ ⌊x * 100⌋ := Int.le_floor.mpr hx
  have hrhe : n ≤ rhe (x * 100) := le_trans hfloor (rhe_ge_floor _)
  have : (n : ℚ) ≤ (rhe (x * 100) : ℚ) := Int.cast_le.mpr hrhe
  linarith

theorem clampQ_ge (lo hi q : ℚ) : lo ≤ clampQ lo hi q := le_max_left _ _

theorem dateBetween_ge (lo hi c : ℕ) : lo ≤ dateBetween lo hi c :=
  Nat.le_add_right _ _

/-! Facts about the generated users and products tables. -/

theorem generateUsers_length (n today : ℕ) (c : Choices) :
    (generateUsers n today c).length = n := by
  simp [generateUsers]

theorem generateUsers_getElem (n today : ℕ) (c : Choices) (i : ℕ)
    (h : i < (generateUsers n today c).length) :
    (generateUsers n today c)[i] = mkUser today c i := by
  simp [generateUsers]

theorem mem_generateUsers (n today : ℕ) (c : Choices) (u : User) :
    u ∈ generateUsers n today c ↔ ∃ i < n, mkUser today c i = u := by
  simp [generateUsers, List.mem_map, List.mem_range]

theorem generateProducts_length (n : ℕ) (c : Choices) :
    (generateProducts n c).length = n := by
  simp [generateProducts]

theorem mem_generateProducts (n : ℕ) (c : Choices) (p : Product) :
    p ∈ generateProducts n c ↔ ∃ i < n, mkProduct c i = p := by
  simp [generateProducts, List.mem_map, List.mem_range]

theorem mkProduct_price_ge (c : Choices) (i : ℕ) : 5 ≤ (mkProduct c i).price := by
  have h : ((500 : ℤ) : ℚ) / 100 ≤ clampQ 5 500 (c.priceC i) := by
    have := clampQ_ge 5 500 (c.priceC i)
    norm_num
    linarith
  have := pyRound2_ge 500 _ h
  norm_num at this
  exact this

theorem generateProducts_price_ge (n : ℕ) (c : Choices) (p : Product)
    (hp : p ∈ generateProducts n c) : 5 ≤ p.price := by
  obtain ⟨i, _, rfl⟩ := (mem_generateProducts n c p).mp hp
  exact mkProduct_price_ge c i

theorem mkProduct_category_mem (c : Choices) (i : ℕ) :
    (mkProduct c i).category ∈ CATEGORIES := by
  have hlen : CATEGORIES.length = 6 := rfl
  have hlt : c.catC i % CATEGORIES.length < CATEGORIES.length := by
    rw [hlen]; omega
  show CATEGORIES.getD (c.catC i % CATEGORIES.length) "" ∈ CATEGORIES
  rw [List.getD_eq_getElem CATEGORIES "" hlt]
  exact List.getElem_mem hlt

/-! Facts about the raw (placeholder-total) orders table. -/

theorem generateOrders_length (n : ℕ) (users : List User) (today : ℕ)
    (c : Choices) : (generateOrders n users today c).length = n := by
  simp [generateOrders]

theorem generateOrders_getElem (n : ℕ) (users : List User) (today : ℕ)
    (c : Choices) (i : ℕ) (h : i < (generateOrders n users today c).length) :
    (generateOrders n users today c)[i] = mkOrder users today c i := by
  simp [generateOrders]

theorem mem_generateOrders (n : ℕ) (users : List User) (today : ℕ)
    (c : Choices) (o : Order) :
    o ∈ generateOrders n users today c ↔ ∃ i < n, mkOrder users today c i = o := by
  simp [generateOrders, List.mem_map, List.mem_range]

theorem mkOrder_order_id (users : List User) (today : ℕ) (c : Choices) (i : ℕ) :
    (mkOrder users today c i).order_id = i + 1 := rfl

theorem mkOrder_status_mem (users : List User) (today : ℕ) (c : Choices) (i : ℕ) :
    (mkOrder users today c i).order_status ∈ ORDER_STATUSES := by
  have hlt : c.orderStatusC i % ORDER_STATUSES.length < ORDER_STATUSES.length := by
    show c.orderStatusC i % 3 < 3; omega
  show ORDER_STATUSES.getD (c.orderStatusC i % ORDER_STATUSES.length) "" ∈ ORDER_STATUSES
  rw [List.getD_eq_getElem ORDER_STATUSES "" hlt]
  exact List.getElem_mem hlt

/-! Facts about one generated order item. -/

theorem numItemsFor_ge_one (c : Choices) (oi : ℕ) : 1 ≤ numItemsFor c oi :=
  Nat.le_add_right 1 _

theorem numItemsFor_le_five (c : Choices) (oi : ℕ) : numItemsFor c oi ≤ 5 := by
  show 1 + c.numItemsC oi % 5 ≤ 5; omega

theorem mkItem_order_id (products : List Product) (c : Choices) (oi : ℕ)
    (o : Order) (j sid : ℕ) : (mkItem products c oi o j sid).order_id = o.order_id := rfl

theorem mkItem_item_id (products : List Product) (c : Choices) (oi : ℕ)
    (o : Order) (j sid : ℕ) : (mkItem products c oi o j sid).item_id = sid := rfl

theorem mkItem_quantity_bounds (products : List Product) (c : Choices) (oi : ℕ)
    (o : Order) (j sid : ℕ) :
    1 ≤ (mkItem products c oi o j sid).quantity ∧
      (mkItem products c oi o j sid).quantity ≤ 5 := by
  show 1 ≤ 1 + c.qtyC oi j % 5 ∧ 1 + c.qtyC oi j % 5 ≤ 5
  omega

theorem mkItem_line_total_eq (products : List Product) (c : Choices) (oi : ℕ)
    (o : Order) (j sid : ℕ) :
    (mkItem products c oi o j sid).line_total =
      pyRound2 (((mkItem products c oi o j sid).quantity : ℚ) *
        (mkItem products c oi o j sid).unit_price) := rfl

theorem mkItem_unit_price_ge (products : List Product) (c : Choices) (oi : ℕ)
    (o : Order) (j sid : ℕ) (hne : products.length ≠ 0)
    (hp : ∀ p ∈ products, 5 ≤ p.price) :
    (9 / 2 : ℚ) ≤ (mkItem products c oi o j sid).unit_price := by
  have hlt : c.prodC oi j % products.length < products.length :=
    Nat.mod_lt _ (Nat.pos_of_ne_zero hne)
  have hget : products.getD (c.prodC oi j % products.length) default =
      products[c.prodC oi j % products.length] :=
    List.getD_eq_getElem products default hlt
  have hmem : products[c.prodC oi j % products.length] ∈ products :=
    List.getElem_mem hlt
  have hprice : 5 ≤ (products.getD (c.prodC oi j % products.length) default).price := by
    rw [hget]; exact hp _ hmem
  show (9 / 2 : ℚ) ≤ pyRound2 (clampQ
    ((products.getD (c.prodC oi j % products.length) default).price * (9/10))
    ((products.getD (c.prodC oi j % products.length) default).price * (11/10))
    (c.upC oi j))
  have hclamp : ((450 : ℤ) : ℚ) / 100 ≤ clampQ
      ((products.getD (c.prodC oi j % products.length) default).price * (9/10))
      ((products.getD (c.prodC oi j % products.length) default).price * (11/10))
      (c.upC oi j) := by
    have h1 := clampQ_ge
      ((products.getD (c.prodC oi j % products.length) default).price * (9/10))
      ((products.getD (c.prodC oi j % products.length) default).price * (11/10))
      (c.upC oi j)
    have h2 : ((450 : ℤ) : ℚ) / 100 ≤
        (products.getD (c.prodC oi j % products.length) default).price * (9/10) := by
      push_cast
      linarith
    linarith
  have := pyRound2_ge 450 _ hclamp
  norm_num at this ⊢
  linarith

theorem mkItem_line_total_ge (products : List Product) (c : Choices) (oi : ℕ)
    (o : Order) (j sid : ℕ) (hne : products.length ≠ 0)
    (hp : ∀ p ∈ products, 5 ≤ p.price) :
    (9 / 2 : ℚ) ≤ (mkItem products c oi o j sid).line_total := by
  have hup := mkItem_unit_price_ge products c oi o j sid hne hp
  have hq := (mkItem_quantity_bounds products c oi o j sid).1
  have hqQ : (1 : ℚ) ≤ ((mkItem products c oi o j sid).quantity : ℚ) := by
    exact_mod_cast hq
  have hmul : (9 / 2 : ℚ) ≤ ((mkItem products c oi o j sid).quantity : ℚ) *
      (mkItem products c oi o j sid).unit_price := by nlinarith
  have h450 : ((450 : ℤ) : ℚ) / 100 ≤ ((mkItem products c oi o j sid).quantity : ℚ) *
      (mkItem products c oi o j sid).unit_price := by
    norm_num
    linarith
  have := pyRound2_ge 450 _ h450
  rw [mkItem_line_total_eq]
  norm_num at this ⊢
  linarith

/-! Structural facts about the order-items generation loop. -/

theorem itemsFor_length (products : List Product) (c : Choices) (oi : ℕ)
    (o : Order) (sid : ℕ) :
    (itemsFor products c oi o sid).length = numItemsFor c oi := by
  simp [itemsFor]

theorem mem_itemsFor (products : List Product) (c : Choices) (oi : ℕ)
    (o : Order) (sid : ℕ) (it : OrderItem) :
    it ∈ itemsFor products c oi o sid ↔
      ∃ j < numItemsFor c oi, mkItem products c oi o j (sid + j) = it := by
  simp [itemsFor, List.mem_map, List.mem_range]

theorem mem_generateOrderItemsAux (products : List Product) (c : Choices) :
    ∀ (l : List Order) (oi sid : ℕ) (it : OrderItem),
      it ∈ generateOrderItemsAux products c l oi sid →
      ∃ (k : ℕ) (hk : k < l.length) (j s : ℕ),
        j < numItemsFor c (oi + k) ∧
          mkItem products c (oi + k) (l.get ⟨k, hk⟩) j s = it
  | [], _, _, _, h => by simp [generateOrderItemsAux] at h
  | o :: rest, oi, sid, it, h => by
    simp only [generateOrderItemsAux] at h
    rw [List.mem_append] at h
    rcases h with h | h
    · obtain ⟨j, hj, hit⟩ := (mem_itemsFor products c oi o sid it).mp h
      exact ⟨0, Nat.succ_pos _, j, sid + j, by simpa using hj, by simpa using hit⟩
    · obtain ⟨k, hk, j, s, hj, hit⟩ :=
        mem_generateOrderItemsAux products c rest (oi + 1) (sid + numItemsFor c oi) it h
      refine ⟨k + 1, by simpa using Nat.succ_lt_succ hk, j, s, ?_, ?_⟩
      · have : oi + (k + 1) = oi + 1 + k := by omega
        rw [this]; exact hj
      · have harith : oi + (k + 1) = oi + 1 + k := by omega
        rw [harith]
        simpa using hit

theorem generateOrderItemsAux_getElem_item_id (products : List Product)
    (c : Choices) :
    ∀ (l : List Order) (oi sid : ℕ) (n : ℕ)
      (hn : n < (generateOrderItemsAux products c l oi sid).length),
      (generateOrderItemsAux products c l oi sid)[n].item_id = sid + n
  | [], _, _, n, hn => by simp [generateOrderItemsAux] at hn
  | o :: rest, oi, sid, n, hn => by
    simp only [generateOrderItemsAux] at hn ⊢
    rw [List.getElem_append]
    split
    · next hlt =>
      rw [itemsFor_length] at hlt
      have : (itemsFor products c oi o sid)[n] =
          mkItem products c oi o n (sid + n) := by
        simp [itemsFor]
      rw [this]
      rfl
    · next hge =>
      push_neg at hge
      rw [itemsFor_length] at hge
      simp only [itemsFor_length]
      have hlen : n - numItemsFor c oi <
          (generateOrderItemsAux products c rest (oi + 1)
            (sid + numItemsFor c oi)).length := by
        have := hn
        rw [List.length_append, itemsFor_length] at this
        omega
      rw [generateOrderItemsAux_getElem_item_id products c rest (oi + 1)
        (sid + numItemsFor c oi) (n - numItemsFor c oi) hlen]
      omega

theorem generateOrderItemsAux_exists_for (products : List Product) (c : Choices) :
    ∀ (l : List Order) (oi sid : ℕ) (k : ℕ) (hk : k < l.length),
      ∃ it ∈ generateOrderItemsAux products c l oi sid,
        it.order_id = (l.get ⟨k, hk⟩).order_id
  | [], _, _, k, hk => by simp at hk
  | o :: rest, oi, sid, 0, hk => by
    refine ⟨mkItem products c oi o 0 (sid + 0), ?_, rfl⟩
    simp only [generateOrderItemsAux]
    rw [List.mem_append]
    left
    exact (mem_itemsFor products c oi o sid _).mpr
      ⟨0, numItemsFor_ge_one c oi, rfl⟩
  | o :: rest, oi, sid, k + 1, hk => by
    obtain ⟨it, hmem, hid⟩ := generateOrderItemsAux_exists_for products c rest
      (oi + 1) (sid + numItemsFor c oi) k (by simpa using Nat.lt_of_succ_lt_succ hk)
    refine ⟨it, ?_, by simpa using hid⟩
    simp only [generateOrderItemsAux]
    rw [List.mem_append]
    right
    exact hmem

/-! The accumulator (`defaultdict` of running sums) computes, for every key,
the sum of `line_total` over the items with that `order_id`. -/

theorem foldl_bumpTotals (items : List OrderItem) :
    ∀ (acc : ℕ → ℚ) (k : ℕ),
      items.foldl bumpTotals acc k =
        acc k + (((items.filter fun it => it.order_id == k).map
          OrderItem.line_total).sum) := by
  induction items with
  | nil => intro acc k; simp
  | cons it rest ih =>
    intro acc k
    rw [List.foldl_cons, ih]
    by_cases hk : it.order_id = k
    · have hbeq : (it.order_id == k) = true := by simp [hk]
      simp only [List.filter_cons, hbeq]
      simp [bumpTotals, hk]
      ring
    · have hbeq : (it.order_id == k) = false := by simp [hk]
      simp only [List.filter_cons, hbeq]
      have hk2 : ¬(k = it.order_id) := fun h => hk h.symm
      simp [bumpTotals, hk2]

theorem accumTotals_eq (items : List OrderItem) (k : ℕ) :
    accumTotals items k =
      (((items.filter fun it => it.order_id == k).map
        OrderItem.line_total).sum) := by
  unfold accumTotals
  rw [foldl_bumpTotals]
  simp

/-! Per-order isolation: when order ids are distinct, the items carrying one
order's id are exactly that order's chunk. -/

theorem itemsFor_filter_self (products : List Product) (c : Choices) (oi : ℕ)
    (o : Order) (sid : ℕ) :
    (itemsFor products c oi o sid).filter (fun it => it.order_id == o.order_id) =
      itemsFor products c oi o sid := by
  rw [List.filter_eq_self]
  intro it hit
  obtain ⟨j, _, rfl⟩ := (mem_itemsFor products c oi o sid it).mp hit
  simp [mkItem_order_id]

theorem itemsFor_filter_ne (products : List Product) (c : Choices) (oi : ℕ)
    (o : Order) (sid : ℕ) (K : ℕ) (hne : o.order_id ≠ K) :
    (itemsFor products c oi o sid).filter (fun it => it.order_id == K) = [] := by
  rw [List.filter_eq_nil_iff]
  intro it hit
  obtain ⟨j, _, rfl⟩ := (mem_itemsFor products c oi o sid it).mp hit
  simp [mkItem_order_id]
  exact hne

theorem generateOrderItemsAux_filter_ne (products : List Product) (c : Choices) :
    ∀ (l : List Order) (oi sid : ℕ) (K : ℕ),
      (∀ o ∈ l, o.order_id ≠ K) →
      (generateOrderItemsAux products c l oi sid).filter
        (fun it => it.order_id == K) = []
  | [], _, _, _, _ => by simp [generateOrderItemsAux]
  | o :: rest, oi, sid, K, h => by
    simp only [generateOrderItemsAux]
    rw [List.filter_append, itemsFor_filter_ne products c oi o sid K
      (h o (List.mem_cons_self o rest)),
      generateOrderItemsAux_filter_ne products c rest (oi + 1)
      (sid + numItemsFor c oi) K (fun o' ho' => h o' (List.mem_cons_of_mem o ho'))]
    rfl

theorem generateOrderItemsAux_filter_length (products : List Product)
    (c : Choices) :
    ∀ (l : List Order) (oi sid : ℕ) (i0 : ℕ) (hi0 : i0 < l.length),
      (∀ k (hk : k < l.length),
        (l.get ⟨k, hk⟩).order_id = (l.get ⟨i0, hi0⟩).order_id → k = i0) →
      ((generateOrderItemsAux products c l oi sid).filter
        (fun it => it.order_id == (l.get ⟨i0, hi0⟩).order_id)).length =
        numItemsFor c (oi + i0)
  | [], _, _, i0, hi0, _ => by simp at hi0
  | o :: rest, oi, sid, 0, hi0, huniq => by
    simp only [generateOrderItemsAux, List.filter_append, List.length_append]
    have hhead : (o :: rest).get ⟨0, hi0⟩ = o := rfl
    rw [hhead, itemsFor_filter_self products c oi o sid, itemsFor_length]
    have hrest : (generateOrderItemsAux products c rest (oi + 1)
        (sid + numItemsFor c oi)).filter (fun it => it.order_id == o.order_id) = [] := by
      apply generateOrderItemsAux_filter_ne
      intro o' ho'
      obtain ⟨k, hk, rfl⟩ := List.mem_iff_get.mp ho'
      intro heq
      have hklt : k + 1 < (o :: rest).length := by simp only [List.length_cons]; omega
      have := huniq (k + 1) hklt (by simpa using heq)
      omega
    rw [hrest]
    simp
  | o :: rest, oi, sid, i0 + 1, hi0, huniq => by
    simp only [generateOrderItemsAux, List.filter_append, List.length_append]
    have hi0' : i0 < rest.length := by simpa using Nat.lt_of_succ_lt_succ hi0
    have hgetsucc : (o :: rest).get ⟨i0 + 1, hi0⟩ = rest.get ⟨i0, hi0'⟩ := rfl
    rw [hgetsucc]
    have hhead : (itemsFor products c oi o sid).filter
        (fun it => it.order_id == (rest.get ⟨i0, hi0'⟩).order_id) = [] := by
      apply itemsFor_filter_ne
      intro heq
      have h0 := huniq 0 (Nat.succ_pos _) (by simpa using heq)
      omega
    rw [hhead]
    have htail := generateOrderItemsAux_filter_length products c rest (oi + 1)
      (sid + numItemsFor c oi) i0 hi0'
      (fun k hk heq => by
        have := huniq (k + 1) (by simpa using Nat.succ_lt_succ hk) (by simpa using heq)
        omega)
    rw [htail]
    have harith : oi + 1 + i0 = oi + (i0 + 1) := by omega
    rw [harith]
    simp

/-! Facts about the full pipeline's tables. -/

theorem numUsersOf_pos (rows : ℕ) : 0 < numUsersOf rows :=
  lt_of_lt_of_le (by norm_num) (le_max_right _ 50)

theorem numProductsOf_pos (rows : ℕ) : 0 < numProductsOf rows :=
  lt_of_lt_of_le (by norm_num) (le_max_right _ 40)

theorem rawOrdersOf_length (rows today : ℕ) (c : Choices) :
    (rawOrdersOf rows today c).length = rows := by
  simp [rawOrdersOf, generateOrders_length]

theorem rawOrdersOf_getElem (rows today : ℕ) (c : Choices) (i : ℕ)
    (h : i < (rawOrdersOf rows today c).length) :
    (rawOrdersOf rows today c)[i] =
      mkOrder (generateUsers (numUsersOf rows) today c) today c i := by
  simp [rawOrdersOf, generateOrders]

theorem ordersOf_length (rows today : ℕ) (c : Choices) :
    (ordersOf rows today c).length = rows := by
  simp [ordersOf, backfillTotals, rawOrdersOf_length]

theorem ordersOf_getElem (rows today : ℕ) (c : Choices) (i : ℕ)
    (h : i < (ordersOf rows today c).length) :
    (ordersOf rows today c)[i] =
      { mkOrder (generateUsers (numUsersOf rows) today c) today c i with
          total_amount :=
            pyRound2 (accumTotals (itemsOf rows today c) (i + 1)) } := by
  have hraw : i < (rawOrdersOf rows today c).length := by
    rw [rawOrdersOf_length]
    rw [ordersOf_length] at h
    exact h
  unfold ordersOf
  simp only [backfillTotals]
  rw [List.getElem_map, rawOrdersOf_getElem rows today c i hraw]
  rfl

theorem mem_ordersOf (rows today : ℕ) (c : Choices) (o : Order) :
    o ∈ ordersOf rows today c ↔
      ∃ i < rows,
        o = { mkOrder (generateUsers (numUsersOf rows) today c) today c i with
                total_amount :=
                  pyRound2 (accumTotals (itemsOf rows today c) (i + 1)) } := by
  constructor
  · intro hmem
    obtain ⟨i, hi, hget⟩ := List.mem_iff_getElem.mp hmem
    have hrows : i < rows := by rw [ordersOf_length] at hi; exact hi
    refine ⟨i, hrows, ?_⟩
    rw [← hget, ordersOf_getElem rows today c i hi]
  · rintro ⟨i, hi, rfl⟩
    have hlen : i < (ordersOf rows today c).length := by
      rw [ordersOf_length]; exact hi
    rw [← ordersOf_getElem rows today c i hlen]
    exact List.getElem_mem hlen

theorem ordersOf_getElem_order_id (rows today : ℕ) (c : Choices) (i : ℕ)
    (h : i < (ordersOf rows today c).length) :
    ((ordersOf rows today c)[i]).order_id = i + 1 := by
  rw [ordersOf_getElem rows today c i h]
  rfl

/-! Item bounds inside the pipeline (where the products table is nonempty and
every price is at least 5). -/

theorem itemsOf_shape (rows today : ℕ) (c : Choices) (it : OrderItem)
    (hit : it ∈ itemsOf rows today c) :
    ∃ (k : ℕ) (hk : k < (rawOrdersOf rows today c).length) (j s : ℕ),
      j < numItemsFor c k ∧
        mkItem (generateProducts (numProductsOf rows) c) c k
          ((rawOrdersOf rows today c).get ⟨k, hk⟩) j s = it := by
  obtain ⟨k, hk, j, s, hj, hmk⟩ :=
    mem_generateOrderItemsAux (generateProducts (numProductsOf rows) c) c
      (rawOrdersOf rows today c) 0 1 it hit
  rw [Nat.zero_add] at hj hmk
  exact ⟨k, hk, j, s, hj, hmk⟩

theorem itemsOf_line_total_ge (rows today : ℕ) (c : Choices) (it : OrderItem)
    (hit : it ∈ itemsOf rows today c) : (9 / 2 : ℚ) ≤ it.line_total := by
  obtain ⟨k, hk, j, s, hj, rfl⟩ := itemsOf_shape rows today c it hit
  apply mkItem_line_total_ge
  · rw [generateProducts_length]
    have := numProductsOf_pos rows
    omega
  · exact fun p hp => generateProducts_price_ge _ c p hp

theorem itemsOf_line_total_nonneg (rows today : ℕ) (c : Choices)
    (it : OrderItem) (hit : it ∈ itemsOf rows today c) : (0 : ℚ) ≤ it.line_total :=
  le_trans (by norm_num) (itemsOf_line_total_ge rows today c it hit)

theorem itemsOf_quantity_bounds (rows today : ℕ) (c : Choices) (it : OrderItem)
    (hit : it ∈ itemsOf rows today c) : 1 ≤ it.quantity ∧ it.quantity ≤ 5 := by
  obtain ⟨k, hk, j, s, hj, rfl⟩ := itemsOf_shape rows today c it hit
  exact mkItem_quantity_bounds _ _ _ _ _ _

theorem itemsOf_unit_price_ge (rows today : ℕ) (c : Choices) (it : OrderItem)
    (hit : it ∈ itemsOf rows today c) : (9 / 2 : ℚ) ≤ it.unit_price := by
  obtain ⟨k, hk, j, s, hj, rfl⟩ := itemsOf_shape rows today c it hit
  apply mkItem_unit_price_ge
  · rw [generateProducts_length]
    have := numProductsOf_pos rows
    omega
  · exact fun p hp => generateProducts_price_ge _ c p hp

theorem itemsOf_line_total_eq (rows today : ℕ) (c : Choices) (it : OrderItem)
    (hit : it ∈ itemsOf rows today c) :
    it.line_total = pyRound2 ((it.quantity : ℚ) * it.unit_price) := by
  obtain ⟨k, hk, j, s, hj, rfl⟩ := itemsOf_shape rows today c it hit
  exact mkItem_line_total_eq _ _ _ _ _ _

theorem itemsOf_exists_for (rows today : ℕ) (c : Choices) (i : ℕ)
    (hi : i < rows) :
    ∃ it ∈ itemsOf rows today c, it.order_id = i + 1 := by
  have hk : i < (rawOrdersOf rows today c).length := by
    rw [rawOrdersOf_length]; exact hi
  obtain ⟨it, hmem, hid⟩ := generateOrderItemsAux_exists_for
    (generateProducts (numProductsOf rows) c) c (rawOrdersOf rows today c) 0 1 i hk
  refine ⟨it, hmem, ?_⟩
  rw [hid, List.get_eq_getElem, rawOrdersOf_getElem rows today c i hk]
  rfl

/-- The accumulated (pre-rounding) total of each generated order is at least
`9/2`: the order has at least one item and every line total is at least
`9/2`, the rest being nonnegative. -/
theorem accumTotals_itemsOf_ge (rows today : ℕ) (c : Choices) (i : ℕ)
    (hi : i < rows) :
    (9 / 2 : ℚ) ≤ accumTotals (itemsOf rows today c) (i + 1) := by
  rw [accumTotals_eq]
  obtain ⟨it, hmem, hid⟩ := itemsOf_exists_for rows today c i hi
  have hfil : it ∈ (itemsOf rows today c).filter (fun x => x.order_id == i + 1) := by
    rw [List.mem_filter]
    exact ⟨hmem, by simp [hid]⟩
  have hmap : it.line_total ∈
      ((itemsOf rows today c).filter (fun x => x.order_id == i + 1)).map
        OrderItem.line_total :=
    List.mem_map_of_mem OrderItem.line_total hfil
  have hnn : ∀ x ∈ ((itemsOf rows today c).filter
      (fun x => x.order_id == i + 1)).map OrderItem.line_total, (0 : ℚ) ≤ x := by
    intro x hx
    obtain ⟨it', hit', rfl⟩ := List.mem_map.mp hx
    exact itemsOf_line_total_nonneg rows today c it'
      (List.mem_filter.mp hit').1
  have hle := List.single_le_sum hnn it.line_total hmap
  have hge := itemsOf_line_total_ge rows today c it hmem
  linarith

theorem ordersOf_total_ge (rows today : ℕ) (c : Choices) (o : Order)
    (ho : o ∈ ordersOf rows today c) : (9 / 2 : ℚ) ≤ o.total_amount := by
  obtain ⟨i, hi, rfl⟩ := (mem_ordersOf rows today c o).mp ho
  show (9 / 2 : ℚ) ≤ pyRound2 (accumTotals (itemsOf rows today c) (i + 1))
  have h := accumTotals_itemsOf_ge rows today c i hi
  have h450 : ((450 : ℤ) : ℚ) / 100 ≤ accumTotals (itemsOf rows today c) (i + 1) := by
    norm_num
    linarith
  have := pyRound2_ge 450 _ h450
  norm_num at this
  linarith

theorem ordersOf_total_is_round (rows today : ℕ) (c : Choices) (o : Order)
    (ho : o ∈ ordersOf rows today c) :
    pyRound2 o.total_amount = o.total_amount := by
  obtain ⟨i, hi, rfl⟩ := (mem_ordersOf rows today c o).mp ho
  exact pyRound2_idem _

/-! Facts about generated payments. -/

theorem generatePayments_length (orders : List Order) (today : ℕ) (c : Choices) :
    (generatePayments orders today c).length = orders.length := by
  simp [generatePayments]

theorem generatePayments_getElem (orders : List Order) (today : ℕ)
    (c : Choices) (i : ℕ) (h : i < (generatePayments orders today c).length) :
    (generatePayments orders today c)[i] =
      mkPayment today c i (orders.getD i default) := by
  simp [generatePayments]

theorem mem_generatePayments (orders : List Order) (today : ℕ) (c : Choices)
    (p : Payment) :
    p ∈ generatePayments orders today c ↔
      ∃ i < orders.length, mkPayment today c i (orders.getD i default) = p := by
  simp [generatePayments, List.mem_map, List.mem_range]

theorem mkPayment_order_id (today : ℕ) (c : Choices) (i : ℕ) (o : Order) :
    (mkPayment today c i o).order_id = o.order_id := rfl

theorem mkPayment_payment_id (today : ℕ) (c : Choices) (i : ℕ) (o : Order) :
    (mkPayment today c i o).payment_id = o.order_id := rfl

theorem mkPayment_date_ge (today : ℕ) (c : Choices) (i : ℕ) (o : Order) :
    o.order_date ≤ (mkPayment today c i o).payment_date :=
  dateBetween_ge _ _ _

theorem mkPayment_amount_ge (today : ℕ) (c : Choices) (i : ℕ) (o : Order) :
    (1 / 100 : ℚ) ≤ (mkPayment today c i o).amount_paid :=
  le_max_right _ _

theorem mkPayment_status_mem (today : ℕ) (c : Choices) (i : ℕ) (o : Order) :
    (mkPayment today c i o).payment_status ∈ PAYMENT_STATUSES := by
  have hlt : c.payStatusC i % PAYMENT_STATUSES.length < PAYMENT_STATUSES.length := by
    show c.payStatusC i % 3 < 3; omega
  show PAYMENT_STATUSES.getD (c.payStatusC i % PAYMENT_STATUSES.length) "" ∈
    PAYMENT_STATUSES
  rw [List.getD_eq_getElem PAYMENT_STATUSES "" hlt]
  exact List.getElem_mem hlt

theorem mkPayment_method_mem (today : ℕ) (c : Choices) (i : ℕ) (o : Order) :
    (mkPayment today c i o).payment_method ∈ PAYMENT_METHODS := by
  have hlt : c.payMethodC i % PAYMENT_METHODS.length < PAYMENT_METHODS.length := by
    show c.payMethodC i % 4 < 4; omega
  show PAYMENT_METHODS.getD (c.payMethodC i % PAYMENT_METHODS.length) "" ∈
    PAYMENT_METHODS
  rw [List.getD_eq_getElem PAYMENT_METHODS "" hlt]
  exact List.getElem_mem hlt

theorem mkPayment_amount_successful (today : ℕ) (c : Choices) (i : ℕ)
    (o : Order) (hst : (mkPayment today c i o).payment_status = "successful")
    (htot : (1 / 100 : ℚ) ≤ pyRound2 o.total_amount) :
    (mkPayment today c i o).amount_paid = pyRound2 o.total_amount := by
  show max (if (PAYMENT_STATUSES.getD (c.payStatusC i % PAYMENT_STATUSES.length) "")
      = "successful" then pyRound2 o.total_amount
    else pyRound2 (clampQ 1 (max o.total_amount 1) (c.amtC i))) (1/100) =
      pyRound2 o.total_amount
  have hst' : (PAYMENT_STATUSES.getD (c.payStatusC i % PAYMENT_STATUSES.length) "")
      = "successful" := hst
  rw [if_pos hst']
  exact max_eq_left htot

/-- An order of the pipeline is determined inside the orders table by its
`order_id`. -/
theorem ordersOf_eq_of_id (rows today : ℕ) (c : Choices) (o : Order)
    (ho : o ∈ ordersOf rows today c) (i : ℕ)
    (hi : i < (ordersOf rows today c).length)
    (hid : o.order_id = i + 1) :
    o = (ordersOf rows today c)[i] := by
  obtain ⟨i', hi', rfl⟩ := (mem_ordersOf rows today c o).mp ho
  have hid' : i' + 1 = i + 1 := hid
  have : i' = i := by omega
  subst this
  have hlen : i' < (ordersOf rows today c).length := hi
  rw [ordersOf_getElem rows today c i' hlen]

/-! The claims. -/

/-- C1: for every generated order, after order-item generation completes and
totals are back-filled, the order's `total_amount` equals the sum of
`line_total` over that order's order items, rounded to 2 decimal places. -/
theorem C1_total_amount_eq_rounded_item_sum (rows today : ℕ) (c : Choices)
    (o : Order) (ho : o ∈ (generateAll rows today c).orders) :
    o.total_amount =
      pyRound2 ((((generateAll rows today c).order_items.filter
        (fun it => it.order_id == o.order_id)).map OrderItem.line_total).sum) := by
  have ho' : o ∈ ordersOf rows today c := ho
  obtain ⟨i, hi, rfl⟩ := (mem_ordersOf rows today c o).mp ho'
  show pyRound2 (accumTotals (itemsOf rows today c) (i + 1)) = _
  rw [accumTotals_eq]
  rfl

/-- C3: every generated order item has `line_total = round(quantity *
unit_price, 2)` and a quantity between 1 and 5. -/
theorem C3_line_total_eq_and_quantity_bounds (rows today : ℕ) (c : Choices)
    (it : OrderItem) (hit : it ∈ (generateAll rows today c).order_items) :
    it.line_total = pyRound2 ((it.quantity : ℚ) * it.unit_price) ∧
      1 ≤ it.quantity ∧ it.quantity ≤ 5 :=
  ⟨itemsOf_line_total_eq rows today c it hit,
   itemsOf_quantity_bounds rows today c it hit⟩

/-- C5: every generated order's `order_date` is no earlier than the
`signup_date` of the user whose `user_id` the order carries. -/
theorem C5_order_date_ge_signup (rows today : ℕ) (c : Choices)
    (o : Order) (ho : o ∈ (generateAll rows today c).orders)
    (u : User) (hu : u ∈ (generateAll rows today c).users)
    (hid : u.user_id = o.user_id) :
    u.signup_date ≤ o.order_date := by
  have ho' : o ∈ ordersOf rows today c := ho
  obtain ⟨i, hi, rfl⟩ := (mem_ordersOf rows today c o).mp ho'
  have hu' : u ∈ generateUsers (numUsersOf rows) today c := hu
  obtain ⟨k, hk, rfl⟩ := (mem_generateUsers (numUsersOf rows) today c u).mp hu'
  have hlen : (generateUsers (numUsersOf rows) today c).length = numUsersOf rows :=
    generateUsers_length _ _ _
  have hpos : 0 < (generateUsers (numUsersOf rows) today c).length := by
    rw [hlen]; exact numUsersOf_pos rows
  have hidx : c.userC i % (generateUsers (numUsersOf rows) today c).length <
      (generateUsers (numUsersOf rows) today c).length := Nat.mod_lt _ hpos
  have hgetD : (generateUsers (numUsersOf rows) today c).getD
      (c.userC i % (generateUsers (numUsersOf rows) today c).length) default =
      mkUser today c
        (c.userC i % (generateUsers (numUsersOf rows) today c).length) := by
    rw [List.getD_eq_getElem _ default hidx]
    exact generateUsers_getElem _ _ _ _ hidx
  have hid2 : (mkUser today c k).user_id =
      ((generateUsers (numUsersOf rows) today c).getD
        (c.userC i % (generateUsers (numUsersOf rows) today c).length)
        default).user_id := hid
  rw [hgetD] at hid2
  have hkidx : k = c.userC i % (generateUsers (numUsersOf rows) today c).length := by
    have : k + 1 =
        c.userC i % (generateUsers (numUsersOf rows) today c).length + 1 := hid2
    omega
  show (mkUser today c k).signup_date ≤
    dateBetween ((generateUsers (numUsersOf rows) today c).getD
      (c.userC i % (generateUsers (numUsersOf rows) today c).length)
      default).signup_date today (c.orderDateC i)
  rw [hgetD, ← hkidx]
  exact dateBetween_ge _ _ _

/-- C9: a non-positive `--rows` value is rejected by `main` with a
terminating `ValueError` before any generation work runs: the run produces
the error, not a dataset. -/
theorem C9_nonpositive_rows_rejected (rows : ℤ) (today : ℕ) (c : Choices)
    (h : rows ≤ 0) :
    mainGen rows today c = .error "rows must be a positive integer." := by
  unfold mainGen
  rw [if_pos h]

/-- C4: every generated payment is dated no earlier than its order; a
successful payment pays exactly the order's (2-decimal) total; and
`amount_paid` is at least `0.01` in all cases. -/
theorem C4_payment_invariants (rows today : ℕ) (c : Choices)
    (p : Payment) (hp : p ∈ (generateAll rows today c).payments)
    (o : Order) (ho : o ∈ (generateAll rows today c).orders)
    (hid : o.order_id = p.order_id) :
    o.order_date ≤ p.payment_date ∧
      (p.payment_status = "successful" → p.amount_paid = o.total_amount) ∧
      (1 / 100 : ℚ) ≤ p.amount_paid := by
  have hp' : p ∈ generatePayments (ordersOf rows today c) today c := hp
  obtain ⟨i, hi, rfl⟩ := (mem_generatePayments _ today c p).mp hp'
  have hrows : i < rows := by rw [ordersOf_length] at hi; exact hi
  have hgetD : (ordersOf rows today c).getD i default =
      (ordersOf rows today c)[i] :=
    List.getD_eq_getElem _ default hi
  have hpid : (mkPayment today c i ((ordersOf rows today c).getD i default)).order_id
      = i + 1 := by
    rw [mkPayment_order_id, hgetD, ordersOf_getElem_order_id rows today c i hi]
  have hoeq : o = (ordersOf rows today c)[i] := by
    apply ordersOf_eq_of_id rows today c o ho i hi
    rw [hid, hpid]
  have homem : o ∈ ordersOf rows today c := ho
  have hototal : (9 / 2 : ℚ) ≤ o.total_amount := ordersOf_total_ge rows today c o homem
  have hround : pyRound2 o.total_amount = o.total_amount :=
    ordersOf_total_is_round rows today c o homem
  have hobase : (ordersOf rows today c).getD i default = o := by
    rw [hgetD, ← hoeq]
  rw [hobase]
  refine ⟨mkPayment_date_ge today c i o, ?_, mkPayment_amount_ge today c i o⟩
  intro hst
  have h01 : (1 / 100 : ℚ) ≤ pyRound2 o.total_amount := by
    rw [hround]; linarith
  rw [mkPayment_amount_successful today c i o hst h01, hround]

/-- C10: every generated order's back-filled `total_amount` is strictly
positive; each order gets between 1 and 5 order items, every item has
quantity at least 1 and unit price at least `round(0.9 * 5.00, 2) = 4.50 >
0`, so the per-order sums are positive and the loader's
`CHECK(total_amount > 0)` constraint is satisfiable on every generated
dataset. -/
theorem C10_total_amount_positive (rows today : ℕ) (c : Choices)
    (o : Order) (ho : o ∈ (generateAll rows today c).orders) :
    0 < o.total_amount ∧
      1 ≤ ((generateAll rows today c).order_items.filter
        (fun it => it.order_id == o.order_id)).length ∧
      ((generateAll rows today c).order_items.filter
        (fun it => it.order_id == o.order_id)).length ≤ 5 ∧
      ∀ it ∈ (generateAll rows today c).order_items.filter
        (fun it => it.order_id == o.order_id),
        1 ≤ it.quantity ∧ (9 / 2 : ℚ) ≤ it.unit_price := by
  have ho' : o ∈ ordersOf rows today c := ho
  have htotal : (9 / 2 : ℚ) ≤ o.total_amount := ordersOf_total_ge rows today c o ho'
  obtain ⟨i, hi, rfl⟩ := (mem_ordersOf rows today c o).mp ho'
  have hk : i < (rawOrdersOf rows today c).length := by
    rw [rawOrdersOf_length]; exact hi
  have hrawid : ((rawOrdersOf rows today c).get ⟨i, hk⟩).order_id = i + 1 := by
    rw [List.get_eq_getElem, rawOrdersOf_getElem rows today c i hk]
    rfl
  have huniq : ∀ k (hk' : k < (rawOrdersOf rows today c).length),
      ((rawOrdersOf rows today c).get ⟨k, hk'⟩).order_id =
        ((rawOrdersOf rows today c).get ⟨i, hk⟩).order_id → k = i := by
    intro k hk' heq
    rw [hrawid] at heq
    have : ((rawOrdersOf rows today c).get ⟨k, hk'⟩).order_id = k + 1 := by
      rw [List.get_eq_getElem, rawOrdersOf_getElem rows today c k hk']
      rfl
    rw [this] at heq
    omega
  have hlen := generateOrderItemsAux_filter_length
    (generateProducts (numProductsOf rows) c) c (rawOrdersOf rows today c) 0 1 i hk huniq
  rw [hrawid] at hlen
  have hoid : ({ mkOrder (generateUsers (numUsersOf rows) today c) today c i with
      total_amount :=
        pyRound2 (accumTotals (itemsOf rows today c) (i + 1)) } : Order).order_id =
      i + 1 := rfl
  have hfil : ((generateAll rows today c).order_items.filter
      (fun it => it.order_id == i + 1)).length = numItemsFor c i := by
    have : (generateAll rows today c).order_items =
        generateOrderItemsAux (generateProducts (numProductsOf rows) c) c
          (rawOrdersOf rows today c) 0 1 := rfl
    rw [this]
    simpa using hlen
  refine ⟨by linarith, ?_, ?_, ?_⟩
  · rw [hoid, hfil]
    exact numItemsFor_ge_one c i
  · rw [hoid, hfil]
    exact numItemsFor_le_five c i
  · intro it hit
    have hmem : it ∈ (generateAll rows today c).order_items :=
      (List.mem_filter.mp hit).1
    exact ⟨(itemsOf_quantity_bounds rows today c it hmem).1,
      itemsOf_unit_price_ge rows today c it hmem⟩

theorem numUsersOf_eq (rows : ℕ) : numUsersOf rows = max ((6 * rows) / 10) 50 := by
  unfold numUsersOf
  congr 1
  have hcast : (rows : ℚ) * (6 / 10) = ((6 * rows : ℕ) : ℚ) / ((10 : ℕ) : ℚ) := by
    push_cast
    ring
  rw [hcast, Nat.floor_div_nat, Nat.floor_natCast]

theorem numProductsOf_eq (rows : ℕ) :
    numProductsOf rows = max ((5 * rows) / 10) 40 := by
  unfold numProductsOf
  congr 1
  have hcast : (rows : ℚ) * (5 / 10) = ((5 * rows : ℕ) : ℚ) / ((10 : ℕ) : ℚ) := by
    push_cast
    ring
  rw [hcast, Nat.floor_div_nat, Nat.floor_natCast]

/-- A concrete resolution of all the random draws, used to instantiate the
claims on concrete runs. -/
def ch0 : Choices where
  nameF := fun _ => "n"
  emailF := fun i => "e" ++ Nat.repr i
  phoneF := fun i => "p" ++ Nat.repr i
  signupC := fun _ => 0
  prodNameF := fun _ => "w"
  catC := fun _ => 0
  priceC := fun _ => 0
  stockC := fun _ => 0
  userC := fun _ => 0
  orderDateC := fun _ => 0
  orderStatusC := fun _ => 0
  numItemsC := fun _ => 0
  prodC := fun _ _ => 0
  qtyC := fun _ _ => 0
  upC := fun _ _ => 0
  payStatusC := fun _ => 0
  payMethodC := fun _ => 0
  payDateC := fun _ => 0
  amtC := fun _ => 0

/-- C8, counterexample: at 101 orders the derived user count is
`max(int(101 * 0.6), 50) = 60`, not the claimed `max(0.6 * 101, 50) = 60.6`
(and likewise the product count is 50, not 50.5): the `int(...)` truncation
in `main` makes the claimed real-valued equality false. -/
theorem C8_counterexample :
    ¬((((generateAll 101 0 ch0).users.length : ℚ) = max ((101 : ℚ) * (6 / 10)) 50) ∧
      (((generateAll 101 0 ch0).products.length : ℚ) = max ((101 : ℚ) * (5 / 10)) 40)) := by
  intro hcontra
  obtain ⟨h1, _⟩ := hcontra
  have hlen : (generateAll 101 0 ch0).users.length = numUsersOf 101 :=
    generateUsers_length _ _ _
  have h60 : numUsersOf 101 = 60 := by
    rw [numUsersOf_eq]
    rfl
  rw [hlen, h60] at h1
  have hmax : max ((101 : ℚ) * (6 / 10)) 50 = 303 / 5 := by
    rw [max_eq_left (by norm_num)]
    norm_num
  rw [hmax] at h1
  norm_num at h1

/-- C8, amended: for every positive order count, the derived user count is
`max(⌊0.6 * orders⌋, 50)` and the derived product count is
`max(⌊0.5 * orders⌋, 40)` (the code truncates `orders * 0.6` and
`orders * 0.5` with `int(...)` before taking the max). -/
theorem C8_derived_counts (rows today : ℕ) (c : Choices) (_hpos : 0 < rows) :
    (generateAll rows today c).users.length = max ((6 * rows) / 10) 50 ∧
      (generateAll rows today c).products.length = max ((5 * rows) / 10) 40 := by
  constructor
  · rw [show (generateAll rows today c).users =
      generateUsers (numUsersOf rows) today c from rfl,
      generateUsers_length, numUsersOf_eq]
  · rw [show (generateAll rows today c).products =
      generateProducts (numProductsOf rows) c from rfl,
      generateProducts_length, numProductsOf_eq]

/-! Facts about the loader's insert loop. -/

theorem insertAll_ok {α : Type} (check : List α → α → Bool) :
    ∀ (rows acc : List α),
      (∀ i (hi : i < rows.length), check (acc ++ rows.take i) rows[i] = true) →
      insertAll check acc rows = .ok (acc ++ rows)
  | [], acc, _ => by simp [insertAll]
  | r :: rs, acc, h => by
    have h0 : check acc r = true := by
      have := h 0 (by simp)
      simpa using this
    simp only [insertAll]
    rw [if_pos h0]
    have hrest := insertAll_ok check rs (acc ++ [r]) (fun i hi => by
      have := h (i + 1) (by simpa using Nat.succ_lt_succ hi)
      simpa [List.take_succ_cons, List.append_assoc] using this)
    rw [hrest]
    simp

theorem insertAll_not_ok {α : Type} (check : List α → α → Bool) :
    ∀ (rows acc : List α) (r : α), r ∈ rows →
      (∀ tbl, check tbl r = false) →
      ∀ t, insertAll check acc rows ≠ .ok t
  | [], _, _, hmem, _, _ => by simp at hmem
  | r' :: rs, acc, r, hmem, hfalse, t => by
    simp only [insertAll]
    rcases List.mem_cons.mp hmem with rfl | hmem'
    · rw [hfalse acc]
      simp
    · by_cases hc : check acc r' = true
      · rw [if_pos hc]
        exact insertAll_not_ok check rs (acc ++ [r']) r hmem' hfalse t
      · rw [if_neg hc]
        simp

theorem mem_take_rangeMap {β : Type} (f : ℕ → β) (n i : ℕ) (x : β)
    (hx : x ∈ ((List.range n).map f).take i) : ∃ k < n, k < i ∧ f k = x := by
  rw [← List.map_take, List.take_range] at hx
  obtain ⟨k, hk, rfl⟩ := List.mem_map.mp hx
  rw [List.mem_range] at hk
  have hk1 : k < n := by omega
  have hk2 : k < i := by omega
  exact ⟨k, hk1, hk2, rfl⟩

theorem mem_take_getElem {β : Type} (l : List β) (i : ℕ) (x : β)
    (hx : x ∈ l.take i) : ∃ k, ∃ hk : k < l.length, k < i ∧ l[k] = x := by
  obtain ⟨k, hk, hget⟩ := List.mem_iff_getElem.mp hx
  have hlen : k < l.length := by
    have := hk
    rw [List.length_take] at this
    omega
  have hki : k < i := by
    have := hk
    rw [List.length_take] at this
    omega
  refine ⟨k, hlen, hki, ?_⟩
  rw [← hget, List.getElem_take]

/-- Loading the generated users succeeds (fresh table): sequential ids and
faker-unique emails and phones never collide. -/
theorem insert_users_ok (rows today : ℕ) (c : Choices)
    (hemail : ∀ i < numUsersOf rows, ∀ j < numUsersOf rows,
      c.emailF i = c.emailF j → i = j)
    (hphone : ∀ i < numUsersOf rows, ∀ j < numUsersOf rows,
      c.phoneF i = c.phoneF j → i = j) :
    insertAll checkUser [] (generateUsers (numUsersOf rows) today c) =
      .ok (generateUsers (numUsersOf rows) today c) := by
  have h := insertAll_ok checkUser (generateUsers (numUsersOf rows) today c) []
    (fun i hi => by
      rw [List.nil_append]
      have hi' : i < numUsersOf rows := by
        rw [generateUsers_length] at hi; exact hi
      rw [generateUsers_getElem (numUsersOf rows) today c i hi]
      unfold checkUser
      rw [List.all_eq_true]
      intro v hv
      obtain ⟨k, hkn, hki, rfl⟩ :=
        mem_take_rangeMap (mkUser today c) (numUsersOf rows) i v hv
      have hne : k ≠ i := Nat.ne_of_lt hki
      simp only [Bool.and_eq_true, bne_iff_ne]
      refine ⟨⟨?_, ?_⟩, ?_⟩
      · show k + 1 ≠ i + 1
        omega
      · show c.emailF k ≠ c.emailF i
        intro heq
        exact hne (hemail k hkn i hi' heq)
      · show c.phoneF k ≠ c.phoneF i
        intro heq
        exact hne (hphone k hkn i hi' heq))
  simpa using h

/-- Loading the generated products succeeds: sequential ids, categories from
the 6-way enumeration, and prices at least 5 (so strictly positive). -/
theorem insert_products_ok (rows : ℕ) (c : Choices) :
    insertAll checkProduct [] (generateProducts (numProductsOf rows) c) =
      .ok (generateProducts (numProductsOf rows) c) := by
  have h := insertAll_ok checkProduct (generateProducts (numProductsOf rows) c) []
    (fun i hi => by
      rw [List.nil_append]
      have hi' : i < numProductsOf rows := by
        rw [generateProducts_length] at hi; exact hi
      have hget : (generateProducts (numProductsOf rows) c)[i] = mkProduct c i := by
        simp [generateProducts]
      rw [hget]
      unfold checkProduct
      simp only [Bool.and_eq_true]
      refine ⟨⟨?_, ?_⟩, ?_⟩
      · rw [List.all_eq_true]
        intro v hv
        obtain ⟨k, hkn, hki, rfl⟩ :=
          mem_take_rangeMap (mkProduct c) (numProductsOf rows) i v hv
        simp only [bne_iff_ne]
        show k + 1 ≠ i + 1
        omega
      · exact List.elem_eq_true_of_mem (mkProduct_category_mem c i)
      · have := mkProduct_price_ge c i
        simp only [decide_eq_true_eq]
        linarith)
  simpa using h

/-- Loading the back-filled orders succeeds: sequential ids, user ids that
exist in the users table, strictly positive totals, statuses from the 3-way
enumeration. -/
theorem insert_orders_ok (rows today : ℕ) (c : Choices) :
    insertAll (checkOrder (generateUsers (numUsersOf rows) today c)) []
      (ordersOf rows today c) = .ok (ordersOf rows today c) := by
  have h := insertAll_ok (checkOrder (generateUsers (numUsersOf rows) today c))
    (ordersOf rows today c) []
    (fun i hi => by
      rw [List.nil_append]
      have hrows : i < rows := by rw [ordersOf_length] at hi; exact hi
      unfold checkOrder
      simp only [Bool.and_eq_true]
      refine ⟨⟨⟨?_, ?_⟩, ?_⟩, ?_⟩
      · rw [List.all_eq_true]
        intro v hv
        obtain ⟨k, hk, hki, rfl⟩ := mem_take_getElem (ordersOf rows today c) i v hv
        have hkrows : k < rows := by rw [ordersOf_length] at hk; exact hk
        simp only [bne_iff_ne]
        rw [ordersOf_getElem_order_id rows today c k hk,
          ordersOf_getElem_order_id rows today c i hi]
        omega
      · rw [List.any_eq_true]
        have hulen : 0 < (generateUsers (numUsersOf rows) today c).length := by
          rw [generateUsers_length]; exact numUsersOf_pos rows
        have hidx : c.userC i % (generateUsers (numUsersOf rows) today c).length <
            (generateUsers (numUsersOf rows) today c).length := Nat.mod_lt _ hulen
        refine ⟨(generateUsers (numUsersOf rows) today c)[c.userC i %
          (generateUsers (numUsersOf rows) today c).length], List.getElem_mem hidx, ?_⟩
        have hoid : ((ordersOf rows today c)[i]).user_id =
            ((generateUsers (numUsersOf rows) today c).getD
              (c.userC i % (generateUsers (numUsersOf rows) today c).length)
              default).user_id := by
          rw [ordersOf_getElem rows today c i hi]
          rfl
        rw [hoid, List.getD_eq_getElem _ default hidx]
        simp
      · have hmem : (ordersOf rows today c)[i] ∈ ordersOf rows today c :=
          List.getElem_mem hi
        have := ordersOf_total_ge rows today c _ hmem
        simp only [decide_eq_true_eq]
        linarith
      · have hstat : ((ordersOf rows today c)[i]).order_status =
            (mkOrder (generateUsers (numUsersOf rows) today c) today c i).order_status := by
          rw [ordersOf_getElem rows today c i hi]
        rw [hstat]
        exact List.elem_eq_true_of_mem
          (mkOrder_status_mem (generateUsers (numUsersOf rows) today c) today c i))
  simpa using h

/-- Loading the generated order items succeeds: sequential item ids, order
and product ids that exist in their tables, positive quantities and unit
prices, nonnegative line totals. -/
theorem insert_items_ok (rows today : ℕ) (c : Choices) :
    insertAll (checkItem (ordersOf rows today c)
        (generateProducts (numProductsOf rows) c)) []
      (itemsOf rows today c) = .ok (itemsOf rows today c) := by
  have h := insertAll_ok (checkItem (ordersOf rows today c)
      (generateProducts (numProductsOf rows) c)) (itemsOf rows today c) []
    (fun i hi => by
      rw [List.nil_append]
      have hitem : (itemsOf rows today c)[i] ∈ itemsOf rows today c :=
        List.getElem_mem hi
      unfold checkItem
      simp only [Bool.and_eq_true]
      refine ⟨⟨⟨⟨⟨?_, ?_⟩, ?_⟩, ?_⟩, ?_⟩, ?_⟩
      · rw [List.all_eq_true]
        intro v hv
        obtain ⟨k, hk, hki, rfl⟩ := mem_take_getElem (itemsOf rows today c) i v hv
        simp only [bne_iff_ne]
        have hidk : (itemsOf rows today c)[k].item_id = 1 + k :=
          generateOrderItemsAux_getElem_item_id _ c (rawOrdersOf rows today c) 0 1 k hk
        have hidi : (itemsOf rows today c)[i].item_id = 1 + i :=
          generateOrderItemsAux_getElem_item_id _ c (rawOrdersOf rows today c) 0 1 i hi
        rw [hidk, hidi]
        omega
      · rw [List.any_eq_true]
        obtain ⟨k, hk, j, s, hj, hmk⟩ := itemsOf_shape rows today c _ hitem
        have hkrows : k < rows := by rw [rawOrdersOf_length] at hk; exact hk
        have hofs : k < (ordersOf rows today c).length := by
          rw [ordersOf_length]; exact hkrows
        refine ⟨(ordersOf rows today c)[k], List.getElem_mem hofs, ?_⟩
        have hrid : (itemsOf rows today c)[i].order_id = k + 1 := by
          rw [← hmk, mkItem_order_id, List.get_eq_getElem,
            rawOrdersOf_getElem rows today c k hk]
          rfl
        rw [hrid, ordersOf_getElem_order_id rows today c k hofs]
        simp
      · rw [List.any_eq_true]
        obtain ⟨k, hk, j, s, hj, hmk⟩ := itemsOf_shape rows today c _ hitem
        have hplen : 0 < (generateProducts (numProductsOf rows) c).length := by
          rw [generateProducts_length]; exact numProductsOf_pos rows
        have hpidx : c.prodC k j % (generateProducts (numProductsOf rows) c).length <
            (generateProducts (numProductsOf rows) c).length := Nat.mod_lt _ hplen
        refine ⟨(generateProducts (numProductsOf rows) c)[c.prodC k j %
          (generateProducts (numProductsOf rows) c).length],
          List.getElem_mem hpidx, ?_⟩
        have hpid : (itemsOf rows today c)[i].product_id =
            ((generateProducts (numProductsOf rows) c).getD
              (c.prodC k j % (generateProducts (numProductsOf rows) c).length)
              default).product_id := by
          rw [← hmk]
          rfl
        rw [hpid, List.getD_eq_getElem _ default hpidx]
        simp
      · have := (itemsOf_quantity_bounds rows today c _ hitem).1
        simp only [decide_eq_true_eq]
        omega
      · have := itemsOf_unit_price_ge rows today c _ hitem
        simp only [decide_eq_true_eq]
        linarith
      · have := itemsOf_line_total_nonneg rows today c _ hitem
        simp only [decide_eq_true_eq]
        linarith)
  simpa using h

/-- Loading the generated payments succeeds: payment ids reuse the (unique)
order ids, order ids exist, methods and statuses are in the enumerations,
and amounts are at least 0.01. -/
theorem insert_payments_ok (rows today : ℕ) (c : Choices) :
    insertAll (checkPayment (ordersOf rows today c)) []
      (generatePayments (ordersOf rows today c) today c) =
      .ok (generatePayments (ordersOf rows today c) today c) := by
  have h := insertAll_ok (checkPayment (ordersOf rows today c))
    (generatePayments (ordersOf rows today c) today c) []
    (fun i hi => by
      rw [List.nil_append]
      have hlen : i < (ordersOf rows today c).length := by
        rw [generatePayments_length] at hi; exact hi
      have hrows : i < rows := by rw [ordersOf_length] at hlen; exact hlen
      have hgetp := generatePayments_getElem (ordersOf rows today c) today c i hi
      have hdefault : (ordersOf rows today c).getD i default =
          (ordersOf rows today c)[i] := List.getD_eq_getElem _ default hlen
      unfold checkPayment
      simp only [Bool.and_eq_true]
      refine ⟨⟨⟨⟨?_, ?_⟩, ?_⟩, ?_⟩, ?_⟩
      · rw [List.all_eq_true]
        intro v hv
        obtain ⟨k, hk, hki, rfl⟩ :=
          mem_take_getElem (generatePayments (ordersOf rows today c) today c) i v hv
        have hklen : k < (ordersOf rows today c).length := by
          rw [generatePayments_length] at hk; exact hk
        have hkrows : k < rows := by rw [ordersOf_length] at hklen; exact hklen
        have hgetk := generatePayments_getElem (ordersOf rows today c) today c k hk
        simp only [bne_iff_ne]
        rw [hgetk, hgetp, mkPayment_payment_id, mkPayment_payment_id,
          List.getD_eq_getElem _ default hklen, hdefault,
          ordersOf_getElem_order_id rows today c k hklen,
          ordersOf_getElem_order_id rows today c i hlen]
        omega
      · rw [List.any_eq_true]
        refine ⟨(ordersOf rows today c)[i], List.getElem_mem hlen, ?_⟩
        rw [hgetp, mkPayment_order_id, hdefault]
        simp
      · rw [hgetp]
        exact List.elem_eq_true_of_mem (mkPayment_method_mem today c i _)
      · rw [hgetp]
        exact List.elem_eq_true_of_mem (mkPayment_status_mem today c i _)
      · rw [hgetp]
        have := mkPayment_amount_ge today c i
          ((ordersOf rows today c).getD i default)
        simp only [decide_eq_true_eq]
        linarith)
  simpa using h

/-- C2: ingesting a validly generated dataset (faker's unique provider makes
the email and phone streams injective) into a fresh store succeeds, and each
of the five tables ends up with exactly the rows of the corresponding CSV
file. -/
theorem C2_ingestion_succeeds_with_matching_counts (rows today : ℕ)
    (c : Choices) (db : Dataset)
    (hemail : ∀ i < numUsersOf rows, ∀ j < numUsersOf rows,
      c.emailF i = c.emailF j → i = j)
    (hphone : ∀ i < numUsersOf rows, ∀ j < numUsersOf rows,
      c.phoneF i = c.phoneF j → i = j) :
    ∃ final, mainIngest db (generateAll rows today c) = .ok final ∧
      final.users.length = (generateAll rows today c).users.length ∧
      final.products.length = (generateAll rows today c).products.length ∧
      final.orders.length = (generateAll rows today c).orders.length ∧
      final.order_items.length = (generateAll rows today c).order_items.length ∧
      final.payments.length = (generateAll rows today c).payments.length := by
  refine ⟨generateAll rows today c, ?_, rfl, rfl, rfl, rfl, rfl⟩
  show insertData (dropAndCreate db) (generateAll rows today c) =
    .ok (generateAll rows today c)
  have h1 := insert_users_ok rows today c hemail hphone
  have h2 := insert_products_ok rows c
  have h3 := insert_orders_ok rows today c
  have h4 := insert_items_ok rows today c
  have h5 := insert_payments_ok rows today c
  show (do
    let us ← insertAll checkUser [] (generateUsers (numUsersOf rows) today c)
    let ps ← insertAll checkProduct [] (generateProducts (numProductsOf rows) c)
    let os ← insertAll (checkOrder us) [] (ordersOf rows today c)
    let its ← insertAll (checkItem os ps) [] (itemsOf rows today c)
    let pys ← insertAll (checkPayment os) []
      (generatePayments (ordersOf rows today c) today c)
    pure ⟨us, ps, os, its, pys⟩ : Except String Dataset) =
    .ok (generateAll rows today c)
  rw [h1]
  show (do
    let ps ← insertAll checkProduct [] (generateProducts (numProductsOf rows) c)
    let os ← insertAll (checkOrder (generateUsers (numUsersOf rows) today c)) []
      (ordersOf rows today c)
    let its ← insertAll (checkItem os ps) [] (itemsOf rows today c)
    let pys ← insertAll (checkPayment os) []
      (generatePayments (ordersOf rows today c) today c)
    pure ⟨generateUsers (numUsersOf rows) today c, ps, os, its, pys⟩ :
      Except String Dataset) = .ok (generateAll rows today c)
  rw [h2]
  show (do
    let os ← insertAll (checkOrder (generateUsers (numUsersOf rows) today c)) []
      (ordersOf rows today c)
    let its ← insertAll (checkItem os (generateProducts (numProductsOf rows) c)) []
      (itemsOf rows today c)
    let pys ← insertAll (checkPayment os) []
      (generatePayments (ordersOf rows today c) today c)
    pure ⟨generateUsers (numUsersOf rows) today c,
      generateProducts (numProductsOf rows) c, os, its, pys⟩ :
      Except String Dataset) = .ok (generateAll rows today c)
  rw [h3]
  show (do
    let its ← insertAll (checkItem (ordersOf rows today c)
      (generateProducts (numProductsOf rows) c)) [] (itemsOf rows today c)
    let pys ← insertAll (checkPayment (ordersOf rows today c)) []
      (generatePayments (ordersOf rows today c) today c)
    pure ⟨generateUsers (numUsersOf rows) today c,
      generateProducts (numProductsOf rows) c, ordersOf rows today c, its, pys⟩ :
      Except String Dataset) = .ok (generateAll rows today c)
  rw [h4]
  show (do
    let pys ← insertAll (checkPayment (ordersOf rows today c)) []
      (generatePayments (ordersOf rows today c) today c)
    pure ⟨generateUsers (numUsersOf rows) today c,
      generateProducts (numProductsOf rows) c, ordersOf rows today c,
      itemsOf rows today c, pys⟩ : Except String Dataset) =
    .ok (generateAll rows today c)
  rw [h5]
  rfl

/-- C6: running ingestion twice in succession against the same generated CSV
files yields identical final table contents — the drop-and-recreate step
erases whatever state the previous run left, so a rerun reproduces the same
database. -/
theorem C6_reingestion_idempotent (db db2 csv : Dataset)
    (h : mainIngest db csv = .ok db2) : mainIngest db2 csv = .ok db2 := by
  have hsame : mainIngest db2 csv = mainIngest db csv := rfl
  rw [hsame, h]

/-- C7: a products row whose price is nonpositive or whose category is
outside the 6-value enumeration is rejected by the check constraints: the
ingestion run never reports success, so the bad row is never silently
committed. -/
theorem C7_bad_product_rejected (db csv : Dataset)
    (hbad : ∃ p ∈ csv.products, p.price ≤ 0 ∨ p.category ∉ CATEGORIES) :
    ∀ final, mainIngest db csv ≠ .ok final := by
  intro final hok
  obtain ⟨p, hpmem, hbadp⟩ := hbad
  have hfalse : ∀ tbl, checkProduct tbl p = false := by
    intro tbl
    unfold checkProduct
    rcases hbadp with h | h
    · have hdec : decide (0 < p.price) = false := decide_eq_false (not_lt.mpr h)
      rw [hdec]
      simp
    · have hcon : CATEGORIES.contains p.category = false := by
        rw [List.contains_eq_any_beq, List.any_eq_false]
        intro x hx
        simp only [beq_iff_eq]
        intro heq
        exact h (heq ▸ hx)
      rw [hcon]
      simp
  have hok' : (do
      let us ← insertAll checkUser [] csv.users
      let ps ← insertAll checkProduct [] csv.products
      let os ← insertAll (checkOrder us) [] csv.orders
      let its ← insertAll (checkItem os ps) [] csv.order_items
      let pys ← insertAll (checkPayment os) [] csv.payments
      pure ⟨us, ps, os, its, pys⟩ : Except String Dataset) = .ok final := hok
  cases hu : insertAll checkUser [] csv.users with
  | error e =>
    rw [hu] at hok'
    exact absurd hok' (by simp [Bind.bind, Except.bind])
  | ok us =>
    rw [hu] at hok'
    cases hp2 : insertAll checkProduct [] csv.products with
    | error e =>
      rw [hp2] at hok'
      exact absurd hok' (by simp [Bind.bind, Except.bind])
    | ok ps =>
      exact insertAll_not_ok checkProduct csv.products [] p hpmem hfalse ps hp2

/-! Concrete instantiations used to exhibit each claim on an actual run. -/

/-- The empty database/file bundle. -/
def dbEmpty : Dataset := ⟨[], [], [], [], []⟩

/-- The first order of the concrete run `generateAll 1 0 ch0`. -/
def oW : Order := (generateAll 1 0 ch0).orders.getD 0 default

/-- The first user of the concrete run. -/
def uW : User := (generateAll 1 0 ch0).users.getD 0 default

/-- The first order item of the concrete run. -/
def itW : OrderItem := (generateAll 1 0 ch0).order_items.getD 0 default

/-- The first payment of the concrete run. -/
def pW : Payment := (generateAll 1 0 ch0).payments.getD 0 default

/-- A one-user CSV bundle. -/
def uOne : User :=
  { user_id := 1, full_name := "a", email := "a", signup_date := 0,
    phone_number := "1" }

def csvOne : Dataset := ⟨[uOne], [], [], [], []⟩

/-- A CSV bundle whose products file has a row violating `CHECK(price > 0)`. -/
def pBad : Product :=
  { product_id := 1, product_name := "b", category := "electronics",
    price := 0, stock_quantity := 0 }

def csvBad : Dataset := ⟨[], [pBad], [], [], []⟩

/-- C9 witness: the run with `--rows -1` errors out. -/
theorem C9_witness :
    mainGen (-1) 0 ch0 = .error "rows must be a positive integer." :=
  C9_nonpositive_rows_rejected (-1) 0 ch0 (by decide)

/-- C8 witness (amended claim): at 3 orders the derived counts are the
floors' maxima. -/
theorem C8_witness :
    (generateAll 3 0 ch0).users.length = max ((6 * 3) / 10) 50 ∧
      (generateAll 3 0 ch0).products.length = max ((5 * 3) / 10) 40 :=
  C8_derived_counts 3 0 ch0 (by decide)

/-- C6 witness: re-ingesting a concrete one-user bundle reproduces the same
database. -/
theorem C6_witness : mainIngest csvOne csvOne = .ok csvOne :=
  C6_reingestion_idempotent dbEmpty csvOne csvOne (by with_unfolding_all rfl)

/-- C7 witness: the bundle with a zero-price product is never ingested
successfully. -/
theorem C7_witness : mainIngest dbEmpty csvBad ≠ .ok dbEmpty :=
  C7_bad_product_rejected dbEmpty csvBad (by with_unfolding_all decide) dbEmpty

set_option maxRecDepth 40000

/-- C1 witness: the concrete run's first order satisfies the totals
equation. -/
theorem C1_witness :
    oW ∈ (generateAll 1 0 ch0).orders ∧
      oW.total_amount = pyRound2 ((((generateAll 1 0 ch0).order_items.filter
        (fun it => it.order_id == oW.order_id)).map OrderItem.line_total).sum) := by
  have hm : oW ∈ (generateAll 1 0 ch0).orders := by with_unfolding_all decide
  exact ⟨hm, C1_total_amount_eq_rounded_item_sum 1 0 ch0 oW hm⟩

/-- C3 witness: the concrete run's first order item satisfies the line-total
equation and quantity bounds. -/
theorem C3_witness :
    itW ∈ (generateAll 1 0 ch0).order_items ∧
      (itW.line_total = pyRound2 ((itW.quantity : ℚ) * itW.unit_price) ∧
        1 ≤ itW.quantity ∧ itW.quantity ≤ 5) := by
  have hm : itW ∈ (generateAll 1 0 ch0).order_items := by with_unfolding_all decide
  exact ⟨hm, C3_line_total_eq_and_quantity_bounds 1 0 ch0 itW hm⟩

/-- C5 witness: the concrete run's first order is dated no earlier than its
user's signup date. -/
theorem C5_witness :
    oW ∈ (generateAll 1 0 ch0).orders ∧ uW ∈ (generateAll 1 0 ch0).users ∧
      uW.user_id = oW.user_id ∧ uW.signup_date ≤ oW.order_date := by
  have h1 : oW ∈ (generateAll 1 0 ch0).orders := by with_unfolding_all decide
  have h2 : uW ∈ (generateAll 1 0 ch0).users := by with_unfolding_all decide
  have h3 : uW.user_id = oW.user_id := by with_unfolding_all decide
  exact ⟨h1, h2, h3, C5_order_date_ge_signup 1 0 ch0 oW h1 uW h2 h3⟩

/-- C4 witness: the concrete run's first payment satisfies the payment
invariants against its order. -/
theorem C4_witness :
    pW ∈ (generateAll 1 0 ch0).payments ∧ oW ∈ (generateAll 1 0 ch0).orders ∧
      oW.order_id = pW.order_id ∧
      (oW.order_date ≤ pW.payment_date ∧
        (pW.payment_status = "successful" → pW.amount_paid = oW.total_amount) ∧
        (1 / 100 : ℚ) ≤ pW.amount_paid) := by
  have h1 : pW ∈ (generateAll 1 0 ch0).payments := by with_unfolding_all decide
  have h2 : oW ∈ (generateAll 1 0 ch0).orders := by with_unfolding_all decide
  have h3 : oW.order_id = pW.order_id := by with_unfolding_all decide
  exact ⟨h1, h2, h3, C4_payment_invariants 1 0 ch0 pW h1 oW h2 h3⟩

/-- C10 witness: the concrete run's first order has a strictly positive
total. -/
theorem C10_witness :
    oW ∈ (generateAll 1 0 ch0).orders ∧
      (0 < oW.total_amount ∧
        1 ≤ ((generateAll 1 0 ch0).order_items.filter
          (fun it => it.order_id == oW.order_id)).length ∧
        ((generateAll 1 0 ch0).order_items.filter
          (fun it => it.order_id == oW.order_id)).length ≤ 5 ∧
        ∀ it ∈ (generateAll 1 0 ch0).order_items.filter
          (fun it => it.order_id == oW.order_id),
          1 ≤ it.quantity ∧ (9 / 2 : ℚ) ≤ it.unit_price) := by
  have hm : oW ∈ (generateAll 1 0 ch0).orders := by with_unfolding_all decide
  exact ⟨hm, C10_total_amount_positive 1 0 ch0 oW hm⟩

/-- C2 witness: ingesting the concrete run (whose email and phone streams
are injective) succeeds with matching row counts. -/
theorem C2_witness :
    ∃ final, mainIngest dbEmpty (generateAll 1 0 ch0) = .ok final ∧
      final.users.length = (generateAll 1 0 ch0).users.length ∧
      final.products.length = (generateAll 1 0 ch0).products.length ∧
      final.orders.length = (generateAll 1 0 ch0).orders.length ∧
      final.order_items.length = (generateAll 1 0 ch0).order_items.length ∧
      final.payments.length = (generateAll 1 0 ch0).payments.length := by
  have he : ∀ i < numUsersOf 1, ∀ j < numUsersOf 1,
      ch0.emailF i = ch0.emailF j → i = j := by with_unfolding_all decide
  have hp : ∀ i < numUsersOf 1, ∀ j < numUsersOf 1,
      ch0.phoneF i = ch0.phoneF j → i = j := by with_unfolding_all decide
  exact C2_ingestion_succeeds_with_matching_counts 1 0 ch0 dbEmpty he hp
